import Mathlib

/-!
Verification of the djblockchain Ethereum provider (src/ethereum.py).

We shallowly embed the core of the provider:
  * `write_transaction` (nonce assignment, optional gas estimation, the
    gas-allowance escalation path, the outer ValueError handler, and the
    tenacity retry wrapper);
  * `watch` (the confirmation tracker loop);
  * `call` (function resolution, the error classifier with its regex, and
    output decoding).

External collaborators (the web3 client, the transaction database, the
chain) are modelled as explicit oracle inputs; each attempt records a
trace of the externally visible operations it performs so that claims
about "exactly one rebuild" or "the nonce placed in the envelope" can be
stated about the trace.
-/

namespace DjB

/-- A single quote character (used by the error-classifier regex). -/
def squote : Char := Char.ofNat 39

/-- Backslash character. -/
def bslash : Char := Char.ofNat 92

/-- The options dict passed to web3 buildTransaction: keys 'from',
'nonce' and optionally 'gas' (src/ethereum.py lines 116-119). -/
structure Options where
  fromAddr : String
  nonce : Nat
  gas : Option Nat
  deriving DecidableEq, Repr

/-- Model of a Python dict used as the payload of a ValueError raised by
the node: it may carry a 'code' entry and a 'message' entry. -/
structure ErrObj where
  code : Option Int
  message : Option String
  deriving DecidableEq, Repr

/-- Model of a Python value appearing in an exception's args tuple. -/
inductive PyVal where
  | obj (o : ErrObj)
  | str (s : String)
  deriving DecidableEq, Repr

/-- Model of the Python exceptions that flow through write_transaction:
ValueError with its args, and the exceptions the handler code itself can
raise when probing a malformed payload. -/
inductive PyErr where
  | valueError (args : List PyVal)
  | keyError
  | indexError
  | typeError
  | attributeError
  deriving DecidableEq, Repr

/-- What one write_transaction attempt can raise to its caller: a Python
error propagated unchanged, or a rest_framework ValidationError carrying
the node's message (line 155). -/
inductive SubmitErr where
  | py (e : PyErr)
  | validation (msg : String)
  deriving DecidableEq, Repr

/-- Externally visible operations performed by one attempt.  Built and
signed transactions are identified by oracle-chosen numbers. -/
inductive Op where
  | build (o : Options)
  | estCtor
  | estNode (built : Nat)
  | signTx (built : Nat)
  | broadcast (signed : Nat)
  deriving DecidableEq, Repr

/-- Oracle for the web3 client and the contract function object: the
outcome of every external call an attempt can make. -/
structure TxOracle where
  getTransactionCount : Nat
  estimateGasCtor : Except PyErr Nat
  buildTransaction : Options → Except PyErr Nat
  estimateGasNode : Nat → Except PyErr Nat
  signTransaction : Nat → Except PyErr Nat
  sendRawTransaction : Nat → Except PyErr Unit
  txHash : Nat → String

/-- SET_GAS_LIMIT constant (src/ethereum.py line 107). -/
def SET_GAS_LIMIT : Bool := false

/-- GAS_MULTIPLIER constant (src/ethereum.py line 108). -/
def GAS_MULTIPLIER : Nat := 2

/-- Is the first list a prefix of the second? -/
def isPrefixCh : List Char → List Char → Bool
  | [], _ => true
  | _ :: _, [] => false
  | c :: cs, d :: ds => c = d && isPrefixCh cs ds

/-- Is the first list a contiguous sublist of the second? -/
def isInfixCh (needle : List Char) : List Char → Bool
  | [] => needle.isEmpty
  | c :: cs => isPrefixCh needle (c :: cs) || isInfixCh needle cs

/-- Substring test, modelling the Python `in` operator on strings. -/
def strIn (needle hay : String) : Bool := isInfixCh needle.data hay.data

/-- The gas estimation block of write_transaction (lines 121-131): try a
constructor-style estimate, attach min(10000000, estimate * multiplier);
on ValueError fall back to estimating against a built envelope and
attach that estimate. -/
def gasBlock (o : TxOracle) (options : Options) : Except PyErr Options × List Op :=
  match o.estimateGasCtor with
  | .ok gas_estimate =>
      (.ok { options with gas := some (min 10000000 (gas_estimate * GAS_MULTIPLIER)) },
       [.estCtor])
  | .error e =>
    match e with
    | .valueError _ =>
      match o.buildTransaction options with
      | .error e2 => (.error e2, [.estCtor, .build options])
      | .ok b =>
        match o.estimateGasNode b with
        | .error e3 => (.error e3, [.estCtor, .build options, .estNode b])
        | .ok g2 => (.ok { options with gas := some g2 },
                     [.estCtor, .build options, .estNode b])
    | _ => (.error e, [.estCtor])

/-- Outcome of evaluating the gas-allowance condition of line 136 on the
args of a caught ValueError, following Python evaluation order and
semantics (IndexError on empty args, substring test on a string payload
then TypeError on indexing it, KeyError when 'message' is absent). -/
inductive GasCheck where
  | escalate
  | reraise
  | err (e : PyErr)
  deriving DecidableEq, Repr

/-- Line 136: if 'code' in exc.args[0] and exc.args[0]['code'] == -32000
and 'gas required exceeds allowance' in exc.args[0]['message']. -/
def gasAllowanceCheck (args : List PyVal) : GasCheck :=
  match args with
  | [] => .err .indexError
  | a :: _ =>
    match a with
    | .obj d =>
      match d.code with
      | none => .reraise
      | some c =>
        if c = -32000 then
          match d.message with
          | none => .err .keyError
          | some m =>
            if strIn "gas required exceeds allowance" m then .escalate else .reraise
        else .reraise
    | .str s => if strIn "code" s then .err .typeError else .reraise

/-- Lines 133-143: build the transaction; on a gas-allowance ValueError
force gas to 20000000, re-estimate against the envelope built with that
gas, and rebuild exactly once with the re-estimated gas; any other
ValueError is re-raised. -/
def buildWithEscalation (o : TxOracle) (options : Options) :
    Except PyErr Nat × List Op :=
  match o.buildTransaction options with
  | .ok b => (.ok b, [.build options])
  | .error e =>
    match e with
    | .valueError args =>
      match gasAllowanceCheck args with
      | .reraise => (.error (.valueError args), [.build options])
      | .err e2 => (.error e2, [.build options])
      | .escalate =>
        let o1 := { options with gas := some 20000000 }
        match o.buildTransaction o1 with
        | .error e2 => (.error e2, [.build options, .build o1])
        | .ok b1 =>
          match o.estimateGasNode b1 with
          | .error e3 => (.error e3, [.build options, .build o1, .estNode b1])
          | .ok g =>
            let o2 := { options with gas := some g }
            match o.buildTransaction o2 with
            | .error e4 => (.error e4, [.build options, .build o1, .estNode b1, .build o2])
            | .ok b2 => (.ok b2, [.build options, .build o1, .estNode b1, .build o2])
    | _ => (.error e, [.build options])

/-- The outer ValueError handler of lines 150-155: a ValueError whose
first arg is a dict carrying a 'message' becomes a ValidationError with
exactly that message; any other ValueError is re-raised as-is; any
non-ValueError propagates untouched. -/
def outerHandle : PyErr → SubmitErr
  | .valueError args =>
    match args with
    | [] => .py (.valueError [])
    | a :: rest =>
      match a with
      | .obj d =>
        match d.message with
        | some m => .validation m
        | none => .py (.valueError (PyVal.obj d :: rest))
      | .str s => .py (.valueError (PyVal.str s :: rest))
  | e => .py e

/-- One attempt of write_transaction (the body of lines 106-159, without
the tenacity wrapper).  dbSenders lists the sender address of every
transaction record currently in the database; the local nonce is the
count of records whose sender matches (line 113).  The node-reported
count (line 114) is only logged by the source and does not influence the
result. -/
def write_transaction_attempt (set_gas_limit : Bool) (chainName : String)
    (o : TxOracle) (sender : String) (dbSenders : List String) :
    Except SubmitErr String × List Op :=
  let nonce_db := (dbSenders.filter (fun a => a = sender)).length
  let options : Options := { fromAddr := sender, nonce := nonce_db, gas := none }
  let gasStep : Except PyErr Options × List Op :=
    if set_gas_limit ∧ chainName ≠ "ethlocal" then gasBlock o options
    else (.ok options, [])
  match gasStep with
  | (.error e, tr) => (.error (outerHandle e), tr)
  | (.ok opts, tr1) =>
    match buildWithEscalation o opts with
    | (.error e, tr2) => (.error (outerHandle e), tr1 ++ tr2)
    | (.ok built, tr2) =>
      match o.signTransaction built with
      | .error e => (.error (outerHandle e), tr1 ++ tr2 ++ [.signTx built])
      | .ok signed =>
        match o.sendRawTransaction signed with
        | .error e =>
            (.error (outerHandle e), tr1 ++ tr2 ++ [.signTx built, .broadcast signed])
        | .ok _ =>
            (.ok (o.txHash signed), tr1 ++ tr2 ++ [.signTx built, .broadcast signed])

/-- The tenacity retry loop: run attempt i, then up to n-1 further
attempts, waiting 2 time units after each failed attempt that is not the
last; returns (result, total wait, attempts made).  reraise=True means
the last attempt's error is returned unmodified. -/
def retryRun (f : Nat → Except SubmitErr String) : Nat → Nat → Except SubmitErr String × Nat × Nat
  | i, 0 => (f i, 0, 1)
  | i, 1 => (f i, 0, 1)
  | i, n + 2 =>
    match f i with
    | .ok a => (.ok a, 0, 1)
    | .error _ =>
      let r := retryRun f (i + 1) (n + 1)
      (r.1, r.2.1 + 2, r.2.2 + 1)

/-- write_transaction with its decorator (line 105): retry(wait=2,
reraise=True, stop=stop_after_attempt(7)).  The oracle is indexed by
attempt number so that transient failures can resolve over time. -/
def write_transaction (set_gas_limit : Bool) (chainName : String)
    (oracles : Nat → TxOracle) (sender : String) (dbSenders : List String) :
    Except SubmitErr String × Nat × Nat :=
  retryRun
    (fun i => (write_transaction_attempt set_gas_limit chainName (oracles i) sender dbSenders).1)
    0 7

/-! ## Confirmation tracker (watch, lines 161-211) -/

/-- A transaction receipt as returned by waitForTransactionReceipt:
block number, gas used, outcome status flag (1 success / 0 failure) and
the created contract address for deploys. -/
structure Receipt where
  blockNumber : Int
  gasUsed : Nat
  status : Nat
  contractAddress : Option String
  deriving DecidableEq, Repr

/-- One polling round of the tracker: the receipt returned by the
receipt poll together with the head block number read right after it. -/
structure ChainObs where
  receipt : Receipt
  head : Int
  deriving DecidableEq, Repr

/-- The fields of a transaction record that watch reads or writes.
status holds the stored receipt outcome flag (none before
confirmation). -/
structure TxRec where
  status : Option Nat
  accepted : Bool
  gas : Option Nat
  blockNumber : Option Int
  contract_address : Option String
  deriving DecidableEq, Repr

/-- Python truthiness of the stored status field (None and 0 are falsy),
as tested by line 162. -/
def truthy : Option Nat → Bool
  | none => false
  | some n => n ≠ 0

/-- Python truthiness of an optional string (None and the empty string
are falsy), as tested by line 202. -/
def truthyStr : Option String → Bool
  | none => false
  | some s => s ≠ ""

/-- The polling loop of lines 185-196 over the successive observations
the chain yields: the observation taken before the loop, then one per
iteration.  While head - receiptBlock < depth the loop consumes the next
observation and sleeps 5 time units before re-checking.  Returns the
observation that satisfied the depth condition (none when the supplied
observations ran out first) and the total time slept. -/
def confirmLoop (depth : Int) : List ChainObs → Option ChainObs × Nat
  | [] => (none, 0)
  | o :: rest =>
    if o.head - o.receipt.blockNumber < depth then
      let r := confirmLoop depth rest
      (r.1, r.2 + 5)
    else (some o, 0)

/-- Lines 197-206: record gas used, the block reference, the created
contract address when the receipt carries a truthy one, mark accepted
and store the receipt's outcome flag. -/
def finalizeRec (t : TxRec) (o : ChainObs) : TxRec :=
  { t with
    gas := some o.receipt.gasUsed
    blockNumber := some o.receipt.blockNumber
    contract_address :=
      if truthyStr o.receipt.contractAddress then o.receipt.contractAddress
      else t.contract_address
    accepted := true
    status := some o.receipt.status }

/-- Observable outcome of one watch invocation: the record afterwards,
how many times the postdeploy completion hook ran, total time slept,
and which exit was taken (spooled to the job queue, returned True from
the status short-circuit, or stalled because the supplied observations
never reached the depth). -/
structure WatchOut where
  record : TxRec
  hookCalls : Nat
  sleepTime : Nat
  spooled : Bool
  returnedTrue : Bool
  stalled : Bool
  deriving DecidableEq, Repr

/-- watch (lines 161-211): short-circuit on a truthy stored status;
otherwise spool when asked; otherwise poll until the confirmation depth
is reached, finalize the record, and run the completion hook once. -/
def watch (depth : Int) (t : TxRec) (spool : Bool) (obs : List ChainObs) : WatchOut :=
  if truthy t.status then
    { record := t, hookCalls := 0, sleepTime := 0,
      spooled := false, returnedTrue := true, stalled := false }
  else if spool then
    { record := t, hookCalls := 0, sleepTime := 0,
      spooled := true, returnedTrue := false, stalled := false }
  else
    match confirmLoop depth obs with
    | (none, s) =>
      { record := t, hookCalls := 0, sleepTime := s,
        spooled := false, returnedTrue := false, stalled := true }
    | (some o, s) =>
      { record := finalizeRec t o, hookCalls := 1, sleepTime := s,
        spooled := false, returnedTrue := false, stalled := false }

/-! ## Error-classifier regex (lines 253-256)

The source applies re.match with the pattern

  .*b'([\\]x[0-9a-z]\x7b2,3\x7d ?)+(?P<msg>[^\\]+)

to the exception's first argument.  We implement Python's backtracking
semantics for exactly this pattern: the greedy .* prefers the latest
occurrence of b-quote, each escape group is a backslash, the letter x,
two or three characters of [0-9a-z] (three preferred) and an optional
space (presence preferred), the group is repeated as often as possible,
and msg captures a maximal nonempty run of non-backslash characters. -/

/-- Membership in the character class [0-9a-z]. -/
def isEscClass (c : Char) : Bool :=
  (48 ≤ c.toNat && c.toNat ≤ 57) || (97 ≤ c.toNat && c.toNat ≤ 122)

/-- All ways one escape group can consume a prefix of s, returning the
remainders in backtracking priority order: three class characters before
two, and with a trailing space before without. -/
def escRemainders (s : List Char) : List (List Char) :=
  match s with
  | c0 :: c1 :: c2 :: c3 :: r2 =>
    if c0 = bslash ∧ c1 = 'x' ∧ isEscClass c2 ∧ isEscClass c3 then
      (match r2 with
       | c4 :: r3 =>
         if isEscClass c4 then
           (match r3 with
            | c5 :: r4 => if c5 = ' ' then [r4, r3] else [r3]
            | [] => [r3])
         else []
       | [] => []) ++
      (match r2 with
       | c4 :: r3 => if c4 = ' ' then [r3, r2] else [r2]
       | [] => [r2])
    else []
  | _ => []

/-- The msg group [^\\]+ at the end of the pattern: a maximal nonempty
run of non-backslash characters. -/
def msgCapture (s : List Char) : Option (List Char) :=
  let run := s.takeWhile (fun c => c ≠ bslash)
  if run.isEmpty then none else some run

/-- After at least one escape group has been consumed: greedily try to
consume further escape groups (each candidate remainder in priority
order), otherwise capture msg here.  Fuel bounds the recursion; every
escape group consumes at least four characters, so fuel = length always
suffices. -/
def afterEsc : Nat → List Char → Option (List Char)
  | 0, _ => none
  | fuel + 1, s =>
    match (escRemainders s).findSome? (afterEsc fuel) with
    | some m => some m
    | none => msgCapture s

/-- Match (escape group)+ then msg at the start of s. -/
def matchAfterTick (s : List Char) : Option (List Char) :=
  (escRemainders s).findSome? (afterEsc s.length)

/-- Candidate remainders for the leading greedy .* of the pattern.
Python's dot does not match a newline, so the prefix consumed by .* must
be newline-free: the candidates are the suffixes of s whose dropped
prefix contains no newline, listed here in increasing position order. -/
def dotStarCandidates : List Char → List (List Char)
  | [] => [[]]
  | c :: cs => (c :: cs) :: (if c = '\n' then [] else dotStarCandidates cs)

/-- The full pattern: a greedy .* over non-newline characters (latest
viable position first), the two literal characters b and quote, one or
more escape groups, then the captured msg. -/
def regexMsgCh (s : List Char) : Option (List Char) :=
  (dotStarCandidates s).reverse.findSome? (fun t =>
    match t with
    | c0 :: c1 :: rest =>
      if c0 = 'b' ∧ c1 = squote then matchAfterTick rest else none
    | _ => none)

/-- re.match of the source pattern against a diagnostic string,
returning the captured msg group when the pattern matches. -/
def regexMsg (s : String) : Option String :=
  (regexMsgCh s.data).map (fun l => String.mk l)

/-! ## Read-only call path (call, lines 213-277) -/

/-- Lower-case hex digit. -/
def hexDigitCh (n : Nat) : Char :=
  if n < 10 then Char.ofNat (48 + n) else Char.ofNat (87 + n)

/-- Two hex digits of one byte. -/
def byteHexCh (b : Nat) : List Char :=
  [hexDigitCh (b / 16 % 16), hexDigitCh (b % 16)]

/-- HexBytes.hex(): 0x followed by two lower-case hex digits per byte. -/
def bytesHex (bs : List Nat) : String :=
  "0x" ++ String.mk ((bs.map byteHexCh).flatten)

/-- A decoded Python value returned by a contract call. -/
inductive Value where
  | bytes (bs : List Nat)
  | num (n : Int)
  | str (s : String)
  | tuple (vs : List Value)

/-- The .hex() method: defined on byte sequences, AttributeError
otherwise. -/
def Value.hexM : Value → Except PyErr String
  | .bytes bs => .ok (bytesHex bs)
  | _ => .error .attributeError

/-- Subscripting result[i]: defined on tuples (IndexError past the end),
TypeError otherwise. -/
def Value.item : Value → Nat → Except PyErr Value
  | .tuple vs, i =>
    match vs[i]? with
    | some v => .ok v
    | none => .error .indexError
  | _, _ => .error .typeError

/-- Python str.startswith, on the subject string s. -/
def pyStartswith (s p : String) : Bool := isPrefixCh p.data s.data

/-- One entry of a function's ABI outputs list. -/
structure AbiOutput where
  name : String
  type : String
  deriving DecidableEq, Repr

/-- A contract function as resolved from the ABI. -/
structure AbiFn where
  name : String
  outputs : List AbiOutput
  deriving DecidableEq, Repr

/-- web3 Contract.find_functions_by_name: every ABI function whose name
matches. -/
def find_functions_by_name (abi : List AbiFn) (fname : String) : List AbiFn :=
  abi.filter (fun f => f.name = fname)

/-- The dict-building loop of lines 271-276: for each output at its
index, result[i].hex() when the output type starts with bytes32,
result[i] otherwise, keyed by the output's name. -/
def decodeFields (result : Value) : List AbiOutput → Nat → Except PyErr (List (String × Value))
  | [], _ => .ok []
  | out :: rest, i =>
    match result.item i with
    | .error e => .error e
    | .ok v =>
      match (if pyStartswith out.type "bytes32" then
               match v.hexM with
               | .ok s => .ok (Value.str s)
               | .error e => .error e
             else .ok v : Except PyErr Value) with
      | .error e => .error e
      | .ok v2 =>
        match decodeFields result rest (i + 1) with
        | .error e => .error e
        | .ok m => .ok ((out.name, v2) :: m)

/-- What call returns on success: a bare value for a single-output
descriptor, a name-keyed mapping otherwise. -/
inductive CallValue where
  | bare (v : Value)
  | mapping (m : List (String × Value))

/-- Lines 263-277: a single output is returned bare (hex form when its
type starts with bytes32); otherwise a mapping from output name to the
per-field converted value. -/
def decodeOutputs (outputs : List AbiOutput) (result : Value) : Except PyErr CallValue :=
  if outputs.length = 1 then
    match outputs with
    | out :: _ =>
      if pyStartswith out.type "bytes32" then
        match result.hexM with
        | .ok s => .ok (.bare (.str s))
        | .error e => .error e
      else .ok (.bare result)
    | [] => .ok (.bare result)
  else
    match decodeFields result outputs 0 with
    | .error e => .error e
    | .ok m => .ok (.mapping m)

/-- The closed set of web3.exceptions types caught by lines 226-248. -/
inductive W3Exc where
  | badFunctionCallOutput
  | blockNotFound
  | blockNumberOutofRange
  | cannotHandleRequest
  | fallbackNotFound
  | infuraKeyNotFound
  | insufficientData
  | invalidAddress
  | invalidEventABI
  | logTopicError
  | manifestValidationFailure
  | mismatchedABI
  | nameNotFound
  | noABIEventsFound
  | noABIFound
  | noABIFunctionsFound
  | pmError
  | staleBlockchain
  | timeExhausted
  | transactionNotFound
  | validationFailure
  deriving DecidableEq, Repr

/-- An exception raised by the underlying .call(): one of the known
web3 types (carrying its args[0] string) or anything else. -/
inductive CallExc where
  | known (k : W3Exc) (msg : String)
  | other (msg : String)
  deriving DecidableEq, Repr

/-- Oracle outcome of invoking func(*args).call(). -/
inductive CallOutcome where
  | success (result : Value)
  | failure (e : CallExc)

/-- What the call path can raise: the unguarded IndexError of line 222,
a generic Exception with a message (lines 258/260 and the send
resolution error), an exception propagated unmodified, or a Python
error from the decoding code. -/
inductive CallErr where
  | indexError
  | generic (msg : String)
  | reraised (e : CallExc)
  | py (e : PyErr)
  deriving DecidableEq, Repr

/-- call (lines 213-277): resolve the function (line 222 indexes the
match list without an emptiness check), run the call, classify known
failures through the regex, propagate unknown ones, decode success. -/
def call (abi : List AbiFn) (fname : String) (outcome : CallOutcome) :
    Except CallErr CallValue :=
  match find_functions_by_name abi fname with
  | [] => .error .indexError
  | func :: _ =>
    match outcome with
    | .failure (.known _ rawMsg) =>
      match regexMsg rawMsg with
      | none => .error (.generic rawMsg)
      | some frag => .error (.generic frag)
    | .failure (.other m) => .error (.reraised (.other m))
    | .success result =>
      match decodeOutputs func.outputs result with
      | .ok v => .ok v
      | .error e => .error (.py e)

/-- The function resolution prefix of send (lines 65-69): unlike call it
checks for an empty match list and raises an explicit not-found
Exception. -/
def send_find (contract_name : String) (abi : List AbiFn) (fname : String) :
    Except CallErr AbiFn :=
  match find_functions_by_name abi fname with
  | [] => .error (.generic (fname ++ " not found in " ++ contract_name))
  | f :: _ => .ok f

/-! ## Theorems -/

theorem gasBlock_build_ops (o : TxOracle) (opts : Options) :
    ∀ op ∈ (gasBlock o opts).2, ∀ q, op = Op.build q → q = opts := by
  unfold gasBlock
  split
  · simp
  · split
    · split
      · simp
      · split <;> simp
    · simp

theorem buildWithEscalation_build_ops (o : TxOracle) (opts : Options) :
    ∀ op ∈ (buildWithEscalation o opts).2, ∀ q, op = Op.build q →
      q.nonce = opts.nonce ∧ q.fromAddr = opts.fromAddr := by
  unfold buildWithEscalation
  split
  · simp
  · split
    · split
      · simp
      · simp
      · dsimp only
        split
        · simp +contextual
        · split
          · simp +contextual
          · split <;> simp +contextual
    · simp

theorem gasBlock_ok_fields (o : TxOracle) (opts r : Options) (tr : List Op)
    (h : gasBlock o opts = (.ok r, tr)) :
    r.nonce = opts.nonce ∧ r.fromAddr = opts.fromAddr := by
  unfold gasBlock at h
  split at h
  · simp only [Prod.mk.injEq, Except.ok.injEq] at h
    exact ⟨by rw [← h.1], by rw [← h.1]⟩
  · split at h
    · split at h
      · simp_all
      · split at h
        · simp_all
        · simp only [Prod.mk.injEq, Except.ok.injEq] at h
          exact ⟨by rw [← h.1], by rw [← h.1]⟩
    · simp_all

theorem attempt_builds_use_options (sgl : Bool) (cn : String) (o : TxOracle)
    (sender : String) (db : List String) :
    ∀ op ∈ (write_transaction_attempt sgl cn o sender db).2, ∀ q, op = Op.build q →
      q.nonce = (db.filter (fun a => a = sender)).length ∧ q.fromAddr = sender := by
  intro op hop q hq
  subst hq
  unfold write_transaction_attempt at hop
  dsimp only at hop
  split at hop
  · rename_i e tr heq
    split at heq
    · have h2 : (gasBlock o ⟨sender, (db.filter (fun a => a = sender)).length, none⟩).2 = tr := by
        rw [heq]
      have := gasBlock_build_ops o ⟨sender, (db.filter (fun a => a = sender)).length, none⟩
        (Op.build q) (h2 ▸ hop) q rfl
      rw [this]
      exact ⟨rfl, rfl⟩
    · simp at heq
  · rename_i opts tr1 heq
    have hfields : opts.nonce = (db.filter (fun a => a = sender)).length ∧
        opts.fromAddr = sender := by
      split at heq
      · exact gasBlock_ok_fields o _ opts tr1 heq
      · simp only [Prod.mk.injEq, Except.ok.injEq] at heq
        rw [← heq.1]
        exact ⟨rfl, rfl⟩
    have htr1 : ∀ op2 ∈ tr1, ∀ q2, op2 = Op.build q2 →
        q2.nonce = (db.filter (fun a => a = sender)).length ∧ q2.fromAddr = sender := by
      split at heq
      · intro op2 hop2 q2 hq2
        have h2 : (gasBlock o ⟨sender, (db.filter (fun a => a = sender)).length, none⟩).2 = tr1 := by
          rw [heq]
        have := gasBlock_build_ops o ⟨sender, (db.filter (fun a => a = sender)).length, none⟩
          op2 (h2 ▸ hop2) q2 hq2
        rw [this]
        exact ⟨rfl, rfl⟩
      · simp only [Prod.mk.injEq, Except.ok.injEq] at heq
        rw [← heq.2]
        intro op2 hop2
        simp at hop2
    have hesc : ∀ tr2, (buildWithEscalation o opts).2 = tr2 → ∀ op2 ∈ tr2, ∀ q2,
        op2 = Op.build q2 →
        q2.nonce = (db.filter (fun a => a = sender)).length ∧ q2.fromAddr = sender := by
      intro tr2 h2 op2 hop2 q2 hq2
      have := buildWithEscalation_build_ops o opts op2 (h2 ▸ hop2) q2 hq2
      exact ⟨this.1.trans hfields.1, this.2.trans hfields.2⟩
    split at hop
    · rename_i e tr2 heq2
      rcases List.mem_append.mp hop with h | h
      · exact htr1 _ h _ rfl
      · exact hesc tr2 (by rw [heq2]) _ h _ rfl
    · rename_i built tr2 heq2
      split at hop
      · rcases List.mem_append.mp hop with h | h
        · rcases List.mem_append.mp h with h2 | h2
          · exact htr1 _ h2 _ rfl
          · exact hesc tr2 (by rw [heq2]) _ h2 _ rfl
        · simp at h
      · split at hop
        · rcases List.mem_append.mp hop with h | h
          · rcases List.mem_append.mp h with h2 | h2
            · exact htr1 _ h2 _ rfl
            · exact hesc tr2 (by rw [heq2]) _ h2 _ rfl
          · simp at h
        · rcases List.mem_append.mp hop with h | h
          · rcases List.mem_append.mp h with h2 | h2
            · exact htr1 _ h2 _ rfl
            · exact hesc tr2 (by rw [heq2]) _ h2 _ rfl
          · simp at h

/-- C1: for every sender and submission attempt, the nonce placed in
every transaction envelope passed to buildTransaction equals the count
of transaction records already recorded locally for that sender (the
Nth submission, with N-1 prior records, gets nonce N-1), and the result
of the attempt does not depend on the node's reported pending
transaction count. -/
theorem submit_nonce_is_local_record_count (sgl : Bool) (cn : String) (o : TxOracle)
    (sender : String) (db : List String) :
    (∀ op ∈ (write_transaction_attempt sgl cn o sender db).2, ∀ q, op = Op.build q →
       q.nonce = (db.filter (fun a => a = sender)).length ∧ q.fromAddr = sender) ∧
    (∀ n, write_transaction_attempt sgl cn { o with getTransactionCount := n } sender db =
          write_transaction_attempt sgl cn o sender db) := by
  exact ⟨attempt_builds_use_options sgl cn o sender db, fun n => rfl⟩

/-- Witness for C1 at a concrete input: a sender with two prior records
gets nonce 2 in the built envelope, whatever the node reports. -/
theorem submit_nonce_is_local_record_count_witness :
    (∀ op ∈ (write_transaction_attempt false "chain"
        { getTransactionCount := 99, estimateGasCtor := .error .keyError,
          buildTransaction := fun _ => .ok 1, estimateGasNode := fun _ => .ok 5,
          signTransaction := fun _ => .ok 2, sendRawTransaction := fun _ => .ok (),
          txHash := fun _ => "0xdead" }
        "alice" ["alice", "bob", "alice"]).2, ∀ q, op = Op.build q →
       q.nonce = (["alice", "bob", "alice"].filter (fun a => a = "alice")).length ∧
       q.fromAddr = "alice") ∧
    (["alice", "bob", "alice"].filter (fun a => a = "alice")).length = 2 := by
  refine ⟨(submit_nonce_is_local_record_count false "chain"
    { getTransactionCount := 99, estimateGasCtor := .error .keyError,
      buildTransaction := fun _ => .ok 1, estimateGasNode := fun _ => .ok 5,
      signTransaction := fun _ => .ok 2, sendRawTransaction := fun _ => .ok (),
      txHash := fun _ => "0xdead" }
    "alice" ["alice", "bob", "alice"]).1, by decide⟩

theorem retryRun_all_fail (f : Nat → Except SubmitErr String) :
    ∀ n i, (∀ j, j < n + 1 → ∃ e, f (i + j) = .error e) →
      retryRun f i (n + 1) = (f (i + n), 2 * n, n + 1) := by
  intro n
  induction n with
  | zero => intro i _; simp [retryRun]
  | succ m ih =>
    intro i h
    obtain ⟨e, he⟩ := h 0 (by omega)
    rw [Nat.add_zero] at he
    have step : retryRun f i (m + 2) =
        ((retryRun f (i + 1) (m + 1)).1, (retryRun f (i + 1) (m + 1)).2.1 + 2,
         (retryRun f (i + 1) (m + 1)).2.2 + 1) := by
      rw [retryRun, he]
    rw [step, ih (i + 1) (fun j hj => by
      have := h (j + 1) (by omega)
      rwa [show i + (j + 1) = i + 1 + j by omega] at this)]
    dsimp only
    rw [show i + 1 + m = i + (m + 1) by omega, show 2 * m + 2 = 2 * (m + 1) by ring]

theorem retryRun_succeeds (f : Nat → Except SubmitErr String) :
    ∀ k i a n, (∀ j, j < k → ∃ e, f (i + j) = .error e) → f (i + k) = .ok a →
      k < n → retryRun f i n = (.ok a, 2 * k, k + 1) := by
  intro k
  induction k with
  | zero =>
    intro i a n _ hok hn
    rw [Nat.add_zero] at hok
    match n, hn with
    | 1, _ => simp [retryRun, hok]
    | (m + 2), _ => rw [retryRun, hok]
  | succ m ih =>
    intro i a n h hok hn
    obtain ⟨e, he⟩ := h 0 (by omega)
    rw [Nat.add_zero] at he
    match n, hn with
    | (p + 2), _ =>
      have step : retryRun f i (p + 2) =
          ((retryRun f (i + 1) (p + 1)).1, (retryRun f (i + 1) (p + 1)).2.1 + 2,
           (retryRun f (i + 1) (p + 1)).2.2 + 1) := by
        rw [retryRun, he]
      rw [step, ih (i + 1) a (p + 1)
        (fun j hj => by
          have := h (j + 1) (by omega)
          rwa [show i + (j + 1) = i + 1 + j by omega] at this)
        (by rwa [show i + 1 + m = i + (m + 1) by omega])
        (by omega)]
      dsimp only
      rw [show 2 * m + 2 = 2 * (m + 1) by ring]

/-- C4: the build-sign-broadcast sequence is retried with a fixed 2-unit
wait between attempts for at most 7 total attempts; when every attempt
fails, the error of the 7th (final) attempt is returned unmodified
after 7 attempts and 12 units of waiting; when attempt k < 7 is the
first to succeed, the submission returns its transaction hash after
k + 1 attempts and 2k units of waiting. -/
theorem submit_retry_policy (sgl : Bool) (cn : String) (oracles : Nat → TxOracle)
    (sender : String) (db : List String) :
    ((∀ i, i < 7 → ∃ e,
        (write_transaction_attempt sgl cn (oracles i) sender db).1 = .error e) →
      write_transaction sgl cn oracles sender db =
        ((write_transaction_attempt sgl cn (oracles 6) sender db).1, 12, 7)) ∧
    (∀ k a, k < 7 →
      (∀ j, j < k → ∃ e,
        (write_transaction_attempt sgl cn (oracles j) sender db).1 = .error e) →
      (write_transaction_attempt sgl cn (oracles k) sender db).1 = .ok a →
      write_transaction sgl cn oracles sender db = (.ok a, 2 * k, k + 1)) := by
  constructor
  · intro h
    have := retryRun_all_fail
      (fun i => (write_transaction_attempt sgl cn (oracles i) sender db).1) 6 0
      (fun j hj => by simpa using h j (by omega))
    simpa [write_transaction] using this
  · intro k a hk h hok
    have := retryRun_succeeds
      (fun i => (write_transaction_attempt sgl cn (oracles i) sender db).1) k 0 a 7
      (fun j hj => by simpa using h j hj) (by simpa using hok) hk
    simpa [write_transaction] using this

/-- Witness for C4: with an oracle whose broadcast fails on attempts 0
and 1 and succeeds from attempt 2, the submission returns the hash
after 3 attempts and 4 units of waiting; with an always-failing build,
all 7 attempts run, 12 units are waited, and the final ValidationError
is surfaced. -/
theorem submit_retry_policy_witness :
    (write_transaction false "chain"
      (fun i =>
        { getTransactionCount := 0, estimateGasCtor := .error .keyError,
          buildTransaction := fun _ => .ok 1, estimateGasNode := fun _ => .ok 5,
          signTransaction := fun _ => .ok 2,
          sendRawTransaction := fun _ =>
            if i < 2 then .error (.valueError [.obj ⟨none, some "busy"⟩]) else .ok (),
          txHash := fun _ => "0xcafe" })
      "alice" [] = (.ok "0xcafe", 4, 3)) ∧
    (write_transaction false "chain"
      (fun _ =>
        { getTransactionCount := 0, estimateGasCtor := .error .keyError,
          buildTransaction := fun _ => .error (.valueError [.obj ⟨some 3, some "bad"⟩]),
          estimateGasNode := fun _ => .ok 5, signTransaction := fun _ => .ok 2,
          sendRawTransaction := fun _ => .ok (), txHash := fun _ => "0xcafe" })
      "alice" [] = (.error (.validation "bad"), 12, 7)) := by
  constructor
  · exact (submit_retry_policy false "chain"
      (fun i =>
        { getTransactionCount := 0, estimateGasCtor := .error .keyError,
          buildTransaction := fun _ => .ok 1, estimateGasNode := fun _ => .ok 5,
          signTransaction := fun _ => .ok 2,
          sendRawTransaction := fun _ =>
            if i < 2 then .error (.valueError [.obj ⟨none, some "busy"⟩]) else .ok (),
          txHash := fun _ => "0xcafe" })
      "alice" []).2 2 "0xcafe" (by omega)
      (fun j hj => ⟨.validation "busy", by interval_cases j <;> rfl⟩) rfl
  · have := (submit_retry_policy false "chain"
      (fun _ =>
        { getTransactionCount := 0, estimateGasCtor := .error .keyError,
          buildTransaction := fun _ => .error (.valueError [.obj ⟨some 3, some "bad"⟩]),
          estimateGasNode := fun _ => .ok 5, signTransaction := fun _ => .ok 2,
          sendRawTransaction := fun _ => .ok (), txHash := fun _ => "0xcafe" })
      "alice" []).1 (fun i _ => ⟨.validation "bad", rfl⟩)
    simpa using this

/-- C5: a build-time ValueError carrying code -32000 and a message
containing "gas required exceeds allowance" is not terminal within the
attempt: the submitter builds once with the forced 20000000 gas ceiling,
re-estimates against that envelope, rebuilds exactly once with the
re-estimated gas, then signs and broadcasts; the trace shows exactly one
rebuild after the re-estimate and no escalation loop. -/
theorem gas_allowance_escalation_single_rebuild (cn : String) (o : TxOracle)
    (sender : String) (db : List String) (m : String) (b1 g b2 sg : Nat)
    (hmsg : strIn "gas required exceeds allowance" m = true)
    (h0 : o.buildTransaction ⟨sender, (db.filter (fun a => a = sender)).length, none⟩ =
          .error (.valueError [PyVal.obj ⟨some (-32000), some m⟩]))
    (h1 : o.buildTransaction
            ⟨sender, (db.filter (fun a => a = sender)).length, some 20000000⟩ = .ok b1)
    (h2 : o.estimateGasNode b1 = .ok g)
    (h3 : o.buildTransaction ⟨sender, (db.filter (fun a => a = sender)).length, some g⟩ =
          .ok b2)
    (h4 : o.signTransaction b2 = .ok sg)
    (h5 : o.sendRawTransaction sg = .ok ()) :
    write_transaction_attempt false cn o sender db =
      (.ok (o.txHash sg),
       [.build ⟨sender, (db.filter (fun a => a = sender)).length, none⟩,
        .build ⟨sender, (db.filter (fun a => a = sender)).length, some 20000000⟩,
        .estNode b1,
        .build ⟨sender, (db.filter (fun a => a = sender)).length, some g⟩,
        .signTx b2, .broadcast sg]) := by
  unfold write_transaction_attempt buildWithEscalation
  simp [h0, h1, h2, h3, h4, h5, gasAllowanceCheck, hmsg]

/-- Witness for C5 at a concrete input. -/
theorem gas_allowance_escalation_single_rebuild_witness :
    write_transaction_attempt false "chain"
      { getTransactionCount := 0, estimateGasCtor := .error .keyError,
        buildTransaction := fun opts =>
          match opts.gas with
          | none => .error (.valueError
              [PyVal.obj ⟨some (-32000), some "gas required exceeds allowance"⟩])
          | some 20000000 => .ok 1
          | some _ => .ok 2,
        estimateGasNode := fun _ => .ok 777, signTransaction := fun _ => .ok 3,
        sendRawTransaction := fun _ => .ok (), txHash := fun _ => "0xesc" }
      "alice" [] =
      (.ok "0xesc",
       [.build ⟨"alice", 0, none⟩, .build ⟨"alice", 0, some 20000000⟩, .estNode 1,
        .build ⟨"alice", 0, some 777⟩, .signTx 2, .broadcast 3]) :=
  gas_allowance_escalation_single_rebuild "chain" _ "alice" []
    "gas required exceeds allowance" 1 777 2 3 rfl rfl rfl rfl rfl rfl rfl

/-- C6: a build-time ValueError that is not the gas-allowance escalation
case is routed through the outer handler: when its payload is a
structured object with a message field the attempt raises a
ValidationError carrying exactly that message and performs no further
operations; when the payload is empty, a bare string, or an object
without a message field, the ValueError is re-raised as-is with its args
untouched. -/
theorem submit_validation_translation (cn : String) (o : TxOracle)
    (sender : String) (db : List String) (args : List PyVal)
    (h0 : o.buildTransaction ⟨sender, (db.filter (fun a => a = sender)).length, none⟩ =
          .error (.valueError args))
    (hch : gasAllowanceCheck args = .reraise) :
    (∀ d rest m, args = PyVal.obj d :: rest → d.message = some m →
       write_transaction_attempt false cn o sender db =
         (.error (.validation m),
          [.build ⟨sender, (db.filter (fun a => a = sender)).length, none⟩])) ∧
    ((args = [] ∨ (∃ s rest, args = PyVal.str s :: rest) ∨
      (∃ d rest, args = PyVal.obj d :: rest ∧ d.message = none)) →
       write_transaction_attempt false cn o sender db =
         (.error (.py (.valueError args)),
          [.build ⟨sender, (db.filter (fun a => a = sender)).length, none⟩])) := by
  constructor
  · intro d rest m hargs hm
    subst hargs
    unfold write_transaction_attempt buildWithEscalation
    simp [h0, hch, outerHandle, hm]
  · intro hshape
    rcases hshape with h | ⟨s, rest, h⟩ | ⟨d, rest, h, hm⟩ <;> subst h <;>
      unfold write_transaction_attempt buildWithEscalation <;>
      simp [h0, hch, outerHandle]
    rw [hm]

/-- Witness for C6 at a concrete input: a node rejection with code 5 and
message "insufficient funds" becomes a ValidationError with that
message. -/
theorem submit_validation_translation_witness :
    write_transaction_attempt false "chain"
      { getTransactionCount := 0, estimateGasCtor := .error .keyError,
        buildTransaction := fun _ =>
          .error (.valueError [PyVal.obj ⟨some 5, some "insufficient funds"⟩]),
        estimateGasNode := fun _ => .ok 5, signTransaction := fun _ => .ok 2,
        sendRawTransaction := fun _ => .ok (), txHash := fun _ => "0x1" }
      "alice" [] =
      (.error (.validation "insufficient funds"), [.build ⟨"alice", 0, none⟩]) :=
  (submit_validation_translation "chain" _ "alice" []
    [PyVal.obj ⟨some 5, some "insufficient funds"⟩] rfl rfl).1
    ⟨some 5, some "insufficient funds"⟩ [] "insufficient funds" rfl rfl

theorem confirmLoop_below (depth : Int) :
    ∀ obs : List ChainObs, (∀ o ∈ obs, o.head - o.receipt.blockNumber < depth) →
      confirmLoop depth obs = (none, 5 * obs.length) := by
  intro obs
  induction obs with
  | nil => intro _; simp [confirmLoop]
  | cons a rest ih =>
    intro h
    have ha := h a (List.mem_cons_self a rest)
    rw [confirmLoop, if_pos ha, ih (fun o ho => h o (List.mem_cons_of_mem a ho))]
    simp
    ring

theorem confirmLoop_some (depth : Int) :
    ∀ obs : List ChainObs, ∀ o s, confirmLoop depth obs = (some o, s) →
      ∃ k, obs[k]? = some o ∧ depth ≤ o.head - o.receipt.blockNumber ∧
        (∀ j, j < k → ∀ oj, obs[j]? = some oj →
          oj.head - oj.receipt.blockNumber < depth) ∧
        s = 5 * k := by
  intro obs
  induction obs with
  | nil => intro o s h; simp [confirmLoop] at h
  | cons a rest ih =>
    intro o s h
    rw [confirmLoop] at h
    by_cases hc : a.head - a.receipt.blockNumber < depth
    · rw [if_pos hc] at h
      dsimp only at h
      obtain ⟨h1, h2⟩ := Prod.mk.injEq .. ▸ h
      rcases hr : confirmLoop depth rest with ⟨r1, r2⟩
      rw [hr] at h1 h2
      dsimp only at h1 h2
      subst h1
      obtain ⟨k, hk, hdep, hbelow, hs⟩ := ih o r2 hr
      refine ⟨k + 1, by simpa using hk, hdep, ?_, by omega⟩
      intro j hj oj hoj
      match j with
      | 0 => simp at hoj; rw [← hoj]; exact hc
      | j + 1 =>
        exact hbelow j (by omega) oj (by simpa using hoj)
    · rw [if_neg hc] at h
      obtain ⟨h1, h2⟩ := Prod.mk.injEq .. ▸ h
      cases h1
      exact ⟨0, by simp, by omega, by omega, by omega⟩

/-- C2: with spool=False and an unconfirmed record, the tracker
finalizes only after an observation with head - receiptBlock at least
the confirmation depth: if every supplied observation is below the
depth the record is untouched and the hook never runs (5 units slept
per consumed re-poll), and when the loop yields an observation it is
the first one at depth, every earlier observation was below depth, the
tracker slept 5 units per earlier observation, and the record is
finalized from exactly that observation with one hook invocation. -/
theorem watch_confirms_only_at_depth (depth : Int) (t : TxRec) (obs : List ChainObs)
    (h : truthy t.status = false) :
    ((∀ o ∈ obs, o.head - o.receipt.blockNumber < depth) →
       watch depth t false obs =
         { record := t, hookCalls := 0, sleepTime := 5 * obs.length,
           spooled := false, returnedTrue := false, stalled := true }) ∧
    (∀ o s, confirmLoop depth obs = (some o, s) →
       ∃ k, obs[k]? = some o ∧ depth ≤ o.head - o.receipt.blockNumber ∧
         (∀ j, j < k → ∀ oj, obs[j]? = some oj →
           oj.head - oj.receipt.blockNumber < depth) ∧
         watch depth t false obs =
           { record := finalizeRec t o, hookCalls := 1, sleepTime := 5 * k,
             spooled := false, returnedTrue := false, stalled := false }) := by
  constructor
  · intro hb
    rw [watch, h]
    simp only [Bool.false_eq_true, if_false]
    rw [confirmLoop_below depth obs hb]
  · intro o s hcl
    obtain ⟨k, hk, hdep, hbelow, hs⟩ := confirmLoop_some depth obs o s hcl
    refine ⟨k, hk, hdep, hbelow, ?_⟩
    rw [watch, h]
    simp only [Bool.false_eq_true, if_false]
    rw [hcl, hs]

/-- Witness for C2: with confirmation depth 3 and a receipt at block
100, heads 101 and 102 do not finalize (two re-polls, 10 units slept,
no hook); once head reaches 103 the tracker finalizes at that third
observation with one hook call and 10 units slept. -/
theorem watch_confirms_only_at_depth_witness :
    (watch 3 ⟨none, false, none, none, none⟩ false
       [⟨⟨100, 5, 1, none⟩, 101⟩, ⟨⟨100, 5, 1, none⟩, 102⟩] =
       { record := ⟨none, false, none, none, none⟩, hookCalls := 0, sleepTime := 10,
         spooled := false, returnedTrue := false, stalled := true }) ∧
    (∃ k, ([⟨⟨100, 5, 1, none⟩, 101⟩, ⟨⟨100, 5, 1, none⟩, 102⟩,
            ⟨⟨100, 5, 1, none⟩, 103⟩] : List ChainObs)[k]? =
            some ⟨⟨100, 5, 1, none⟩, 103⟩ ∧
      (3 : Int) ≤ (103 : Int) - 100 ∧
      (∀ j, j < k → ∀ oj, ([⟨⟨100, 5, 1, none⟩, 101⟩, ⟨⟨100, 5, 1, none⟩, 102⟩,
            ⟨⟨100, 5, 1, none⟩, 103⟩] : List ChainObs)[j]? = some oj →
          oj.head - oj.receipt.blockNumber < 3) ∧
      watch 3 ⟨none, false, none, none, none⟩ false
        [⟨⟨100, 5, 1, none⟩, 101⟩, ⟨⟨100, 5, 1, none⟩, 102⟩, ⟨⟨100, 5, 1, none⟩, 103⟩] =
        { record := finalizeRec ⟨none, false, none, none, none⟩ ⟨⟨100, 5, 1, none⟩, 103⟩,
          hookCalls := 1, sleepTime := 5 * k,
          spooled := false, returnedTrue := false, stalled := false }) := by
  constructor
  · exact (watch_confirms_only_at_depth 3 ⟨none, false, none, none, none⟩
      [⟨⟨100, 5, 1, none⟩, 101⟩, ⟨⟨100, 5, 1, none⟩, 102⟩] rfl).1 (by decide)
  · exact (watch_confirms_only_at_depth 3 ⟨none, false, none, none, none⟩
      [⟨⟨100, 5, 1, none⟩, 101⟩, ⟨⟨100, 5, 1, none⟩, 102⟩, ⟨⟨100, 5, 1, none⟩, 103⟩]
      rfl).2 ⟨⟨100, 5, 1, none⟩, 103⟩ 10 (by decide)

/-- C3 counterexample: a record the tracker itself drove to the
terminal confirmed state with a failure outcome (accepted, status 0) is
not short-circuited on re-entry: a second inline invocation runs the
whole tracker again, invokes the completion hook a second time, and
(after a reorg moved the receipt) changes the record. -/
theorem watch_reentry_after_failure_not_noop :
    (watch 3 ⟨none, false, none, none, none⟩ false
        [⟨⟨100, 21000, 0, none⟩, 103⟩]).record.accepted = true ∧
    (watch 3 ⟨none, false, none, none, none⟩ false
        [⟨⟨100, 21000, 0, none⟩, 103⟩]).record.status = some 0 ∧
    (watch 3 ⟨none, false, none, none, none⟩ false
        [⟨⟨100, 21000, 0, none⟩, 103⟩]).hookCalls = 1 ∧
    (watch 3 (watch 3 ⟨none, false, none, none, none⟩ false
        [⟨⟨100, 21000, 0, none⟩, 103⟩]).record false
        [⟨⟨200, 22000, 0, none⟩, 203⟩]).hookCalls = 1 ∧
    (watch 3 (watch 3 ⟨none, false, none, none, none⟩ false
        [⟨⟨100, 21000, 0, none⟩, 103⟩]).record false
        [⟨⟨200, 22000, 0, none⟩, 203⟩]).record ≠
      (watch 3 ⟨none, false, none, none, none⟩ false
        [⟨⟨100, 21000, 0, none⟩, 103⟩]).record := by
  decide

/-- C3 amended: re-invoking the tracker on a record whose stored status
flag is truthy (a success outcome) is a no-op in every execution
context: the record is unchanged, nothing is spooled, no time is slept
and the completion hook does not run again; a record confirmed with the
failure outcome flag 0 is not short-circuited (see the
counterexample). -/
theorem watch_truthy_status_noop (depth : Int) (t : TxRec) (spool : Bool)
    (obs : List ChainObs) (h : truthy t.status = true) :
    watch depth t spool obs =
      { record := t, hookCalls := 0, sleepTime := 0,
        spooled := false, returnedTrue := true, stalled := false } := by
  rw [watch, h]
  simp

/-- Witness for C3 (amended) at a concrete confirmed-success record, in
both execution contexts. -/
theorem watch_truthy_status_noop_witness :
    (watch 3 ⟨some 1, true, some 21000, some 100, none⟩ false
        [⟨⟨200, 22000, 0, none⟩, 203⟩] =
      { record := ⟨some 1, true, some 21000, some 100, none⟩, hookCalls := 0,
        sleepTime := 0, spooled := false, returnedTrue := true, stalled := false }) ∧
    (watch 3 ⟨some 1, true, some 21000, some 100, none⟩ true
        [⟨⟨200, 22000, 0, none⟩, 203⟩] =
      { record := ⟨some 1, true, some 21000, some 100, none⟩, hookCalls := 0,
        sleepTime := 0, spooled := false, returnedTrue := true, stalled := false }) :=
  ⟨watch_truthy_status_noop 3 ⟨some 1, true, some 21000, some 100, none⟩ false
     [⟨⟨200, 22000, 0, none⟩, 203⟩] rfl,
   watch_truthy_status_noop 3 ⟨some 1, true, some 21000, some 100, none⟩ true
     [⟨⟨200, 22000, 0, none⟩, 203⟩] rfl⟩

theorem decodeFields_spec :
    ∀ (outs : List AbiOutput) (vs : List Value) (i0 : Nat),
      outs.length + i0 ≤ vs.length →
      (∀ j (hj : j < outs.length), pyStartswith outs[j].type "bytes32" = true →
         ∃ bs, vs[i0 + j]? = some (Value.bytes bs)) →
      ∃ m, decodeFields (Value.tuple vs) outs i0 = .ok m ∧ m.length = outs.length ∧
        ∀ j (hj : j < outs.length), ∃ v, vs[i0 + j]? = some v ∧
          ((pyStartswith outs[j].type "bytes32" = false →
             m[j]? = some (outs[j].name, v)) ∧
           (pyStartswith outs[j].type "bytes32" = true →
             ∃ bs, v = Value.bytes bs ∧
               m[j]? = some (outs[j].name, Value.str (bytesHex bs)))) := by
  intro outs
  induction outs with
  | nil =>
    intro vs i0 _ _
    exact ⟨[], rfl, rfl, fun j hj => absurd hj (by simp)⟩
  | cons out rest ih =>
    intro vs i0 hlen htyped
    have hi0 : i0 < vs.length := by simp at hlen; omega
    have hv0 : vs[i0]? = some vs[i0] := List.getElem?_eq_getElem hi0
    have hitem : (Value.tuple vs).item i0 = .ok vs[i0] := by
      rw [Value.item, hv0]
    obtain ⟨m', hm', hlen', hchar'⟩ := ih vs (i0 + 1)
      (by simp at hlen ⊢; omega)
      (fun j hj hb => by
        have := htyped (j + 1) (by simpa using Nat.succ_lt_succ hj) (by simpa using hb)
        rwa [show i0 + (j + 1) = i0 + 1 + j by omega] at this)
    by_cases hb : pyStartswith out.type "bytes32"
    · obtain ⟨bs, hbs⟩ := htyped 0 (by simp) (by simpa using hb)
      rw [Nat.add_zero, hv0] at hbs
      have hv0bs : vs[i0] = Value.bytes bs := by
        exact Option.some.inj hbs
      refine ⟨(out.name, Value.str (bytesHex bs)) :: m', ?_, by simpa using hlen', ?_⟩
      · rw [decodeFields, hitem]
        dsimp only
        rw [if_pos hb, hv0bs]
        rw [show (Value.bytes bs).hexM = .ok (bytesHex bs) from rfl]
        dsimp only
        rw [hm']
      · intro j hj
        match j with
        | 0 =>
          refine ⟨vs[i0], by rw [Nat.add_zero]; exact hv0, ?_, ?_⟩
          · intro hb'
            simp only [List.getElem_cons_zero] at hb'
            rw [hb] at hb'
            cases hb'
          · intro _
            exact ⟨bs, hv0bs, by simp⟩
        | j + 1 =>
          obtain ⟨v, hv, hc1, hc2⟩ := hchar' j (by simpa using Nat.lt_of_succ_lt_succ hj)
          refine ⟨v, by rwa [show i0 + (j + 1) = i0 + 1 + j by omega], ?_, ?_⟩
          · intro hb'
            simp only [List.getElem_cons_succ] at hb' ⊢
            simpa using hc1 hb'
          · intro hb'
            simp only [List.getElem_cons_succ] at hb' ⊢
            simpa using hc2 hb'
    · refine ⟨(out.name, vs[i0]) :: m', ?_, by simpa using hlen', ?_⟩
      · rw [decodeFields, hitem]
        dsimp only
        rw [if_neg hb]
        dsimp only
        rw [hm']
      · intro j hj
        match j with
        | 0 =>
          refine ⟨vs[i0], by rw [Nat.add_zero]; exact hv0, ?_, ?_⟩
          · intro _; simp
          · intro hb'
            simp only [List.getElem_cons_zero] at hb'
            exact absurd hb' hb
        | j + 1 =>
          obtain ⟨v, hv, hc1, hc2⟩ := hchar' j (by simpa using Nat.lt_of_succ_lt_succ hj)
          refine ⟨v, by rwa [show i0 + (j + 1) = i0 + 1 + j by omega], ?_, ?_⟩
          · intro hb'
            simp only [List.getElem_cons_succ] at hb' ⊢
            simpa using hc1 hb'
          · intro hb'
            simp only [List.getElem_cons_succ] at hb' ⊢
            simpa using hc2 hb'

/-- C7: for a successful read-only call, a resolved function whose
output descriptor lists exactly one output yields a bare value (its
hex-string form when the output type is a bytes32 sequence), and a
descriptor with two or more outputs yields a mapping whose j-th entry is
keyed by the j-th output's name with the same per-field bytes32-to-hex
conversion applied. -/
theorem call_output_decoding (abi : List AbiFn) (fname : String) (func : AbiFn)
    (tl : List AbiFn) (hf : find_functions_by_name abi fname = func :: tl) :
    (∀ out res, func.outputs = [out] → pyStartswith out.type "bytes32" = false →
       call abi fname (.success res) = .ok (.bare res)) ∧
    (∀ out bs, func.outputs = [out] → pyStartswith out.type "bytes32" = true →
       call abi fname (.success (.bytes bs)) = .ok (.bare (.str (bytesHex bs)))) ∧
    (∀ vs, 2 ≤ func.outputs.length → func.outputs.length ≤ vs.length →
       (∀ j (hj : j < func.outputs.length),
          pyStartswith func.outputs[j].type "bytes32" = true →
          ∃ bs, vs[j]? = some (Value.bytes bs)) →
       ∃ m, call abi fname (.success (.tuple vs)) = .ok (.mapping m) ∧
         m.length = func.outputs.length ∧
         ∀ j (hj : j < func.outputs.length), ∃ v, vs[j]? = some v ∧
           ((pyStartswith func.outputs[j].type "bytes32" = false →
              m[j]? = some (func.outputs[j].name, v)) ∧
            (pyStartswith func.outputs[j].type "bytes32" = true →
              ∃ bs, v = Value.bytes bs ∧
                m[j]? = some (func.outputs[j].name, Value.str (bytesHex bs))))) := by
  refine ⟨?_, ?_, ?_⟩
  · intro out res hout hb
    rw [call, hf]
    dsimp only
    rw [decodeOutputs.eq_def, hout]
    simp [hb]
  · intro out bs hout hb
    rw [call, hf]
    dsimp only
    rw [decodeOutputs.eq_def, hout]
    simp [hb, Value.hexM]
  · intro vs h2 hlen htyped
    obtain ⟨m, hm, hmlen, hchar⟩ := decodeFields_spec func.outputs vs 0
      (by omega) (fun j hj hb => by simpa using htyped j hj hb)
    refine ⟨m, ?_, hmlen, fun j hj => by simpa using hchar j hj⟩
    rw [call, hf]
    dsimp only
    rw [decodeOutputs.eq_def]
    rw [if_neg (by omega), hm]

/-- Witness for C7 at concrete inputs: a single uint256 output comes
back bare, a single bytes32 output comes back as its hex string, and a
two-output descriptor comes back as a name-keyed mapping with the
bytes32 field hex-converted. -/
theorem call_output_decoding_witness :
    (call [⟨"total", [⟨"val", "uint256"⟩]⟩] "total" (.success (.num 7)) =
       .ok (.bare (.num 7))) ∧
    (call [⟨"hashOf", [⟨"h", "bytes32"⟩]⟩] "hashOf" (.success (.bytes [171, 205])) =
       .ok (.bare (.str "0xabcd"))) ∧
    (∃ m, call [⟨"getInvestor", [⟨"id", "bytes32"⟩, ⟨"rating", "uint8"⟩]⟩] "getInvestor"
         (.success (.tuple [.bytes [171, 205], .num 3])) = .ok (.mapping m) ∧
       m.length = 2 ∧
       ∀ j (hj : j < ([⟨"id", "bytes32"⟩, ⟨"rating", "uint8"⟩] : List AbiOutput).length),
         ∃ v, ([Value.bytes [171, 205], Value.num 3] : List Value)[j]? = some v ∧
           ((pyStartswith ([⟨"id", "bytes32"⟩,
                ⟨"rating", "uint8"⟩] : List AbiOutput)[j].type "bytes32" = false →
              m[j]? = some (([⟨"id", "bytes32"⟩,
                ⟨"rating", "uint8"⟩] : List AbiOutput)[j].name, v)) ∧
            (pyStartswith ([⟨"id", "bytes32"⟩,
                ⟨"rating", "uint8"⟩] : List AbiOutput)[j].type "bytes32" = true →
              ∃ bs, v = Value.bytes bs ∧
                m[j]? = some (([⟨"id", "bytes32"⟩,
                  ⟨"rating", "uint8"⟩] : List AbiOutput)[j].name,
                  Value.str (bytesHex bs))))) := by
  refine ⟨?_, ?_, ?_⟩
  · exact (call_output_decoding [⟨"total", [⟨"val", "uint256"⟩]⟩] "total"
      ⟨"total", [⟨"val", "uint256"⟩]⟩ [] rfl).1 ⟨"val", "uint256"⟩ (.num 7) rfl rfl
  · exact (call_output_decoding [⟨"hashOf", [⟨"h", "bytes32"⟩]⟩] "hashOf"
      ⟨"hashOf", [⟨"h", "bytes32"⟩]⟩ [] rfl).2.1 ⟨"h", "bytes32"⟩ [171, 205] rfl rfl
  · exact (call_output_decoding [⟨"getInvestor", [⟨"id", "bytes32"⟩, ⟨"rating", "uint8"⟩]⟩]
      "getInvestor" ⟨"getInvestor", [⟨"id", "bytes32"⟩, ⟨"rating", "uint8"⟩]⟩ [] rfl).2.2
      [.bytes [171, 205], .num 3] (by decide) (by decide)
      (fun j hj hb => by
        match j with
        | 0 => exact ⟨[171, 205], rfl⟩
        | 1 =>
          simp only [List.getElem_cons_succ, List.getElem_cons_zero] at hb
          exact absurd hb (by decide)
        | n + 2 =>
          simp only [List.length_cons, List.length_nil] at hj
          omega)

/-- C10: when the function name matches no ABI entry, the read-only
call path indexes the empty match list without a guard and raises a bare
IndexError for every call outcome; it never produces the classifier's
generic failure; only the state-changing send path checks the match list
and raises the explicit not-found error. -/
theorem call_unknown_function_unguarded (abi : List AbiFn) (fname cname : String)
    (outcome : CallOutcome) (h : find_functions_by_name abi fname = []) :
    call abi fname outcome = .error .indexError ∧
    (∀ msg, call abi fname outcome ≠ .error (.generic msg)) ∧
    send_find cname abi fname = .error (.generic (fname ++ " not found in " ++ cname)) := by
  refine ⟨?_, ?_, ?_⟩
  · rw [call, h]
  · intro msg hcontra
    rw [call, h] at hcontra
    simp at hcontra
  · rw [send_find, h]

/-- Witness for C10 at a concrete input: the ABI has only "transfer";
calling "mint" raises IndexError, sending "mint" raises the explicit
not-found error. -/
theorem call_unknown_function_unguarded_witness :
    call [⟨"transfer", [⟨"ok", "bool"⟩]⟩] "mint" (.failure (.other "boom")) =
      .error .indexError ∧
    (∀ msg, call [⟨"transfer", [⟨"ok", "bool"⟩]⟩] "mint" (.failure (.other "boom")) ≠
      .error (.generic msg)) ∧
    send_find "Crowdsale" [⟨"transfer", [⟨"ok", "bool"⟩]⟩] "mint" =
      .error (.generic ("mint" ++ " not found in " ++ "Crowdsale")) :=
  call_unknown_function_unguarded [⟨"transfer", [⟨"ok", "bool"⟩]⟩] "mint" "Crowdsale"
    (.failure (.other "boom")) rfl

/-- C9 counterexample: with gas estimation enabled, when the
constructor-style estimate raises a ValueError and the fallback
estimate against the built envelope returns 30000000, the transaction
is built with gas 30000000 attached, which exceeds both the fixed
ceiling 10000000 and the ceiling multiplied by the safety factor: the
fallback estimate is attached uncapped, refuting the claimed cap. -/
theorem gas_fallback_uncapped_counterexample :
    (write_transaction_attempt true "chain"
      { getTransactionCount := 0,
        estimateGasCtor := .error (.valueError [PyVal.obj ⟨some (-32000), some "x"⟩]),
        buildTransaction := fun _ => .ok 1, estimateGasNode := fun _ => .ok 30000000,
        signTransaction := fun _ => .ok 2, sendRawTransaction := fun _ => .ok (),
        txHash := fun _ => "0xg" }
      "alice" []).2 =
      [.estCtor, .build ⟨"alice", 0, none⟩, .estNode 1,
       .build ⟨"alice", 0, some 30000000⟩, .signTx 1, .broadcast 2] ∧
    ¬ (30000000 ≤ 10000000) ∧ ¬ (30000000 ≤ 10000000 * GAS_MULTIPLIER) :=
  ⟨rfl, by decide, by decide⟩

/-- C9 amended: when gas estimation is enabled, a successful
constructor-style estimate g attaches min(10000000, g * 2) (the safety
factor applies to the estimate and the fixed ceiling caps the product);
a constructor-style ValueError triggers the fallback estimate against
the fully built envelope, whose result is attached without any cap or
multiplier; a non-ValueError from the constructor-style estimate
propagates; and the enabled attempt builds the transaction with exactly
the estimator's gas value attached. -/
theorem gas_estimation_behavior (cn sender : String) (o : TxOracle)
    (db : List String) (opts : Options) :
    (∀ g, o.estimateGasCtor = .ok g →
       gasBlock o opts =
         (.ok { opts with gas := some (min 10000000 (g * GAS_MULTIPLIER)) }, [.estCtor])) ∧
    (∀ args b g2, o.estimateGasCtor = .error (.valueError args) →
       o.buildTransaction opts = .ok b → o.estimateGasNode b = .ok g2 →
       gasBlock o opts =
         (.ok { opts with gas := some g2 }, [.estCtor, .build opts, .estNode b])) ∧
    (∀ e, o.estimateGasCtor = .error e → (∀ args, e ≠ .valueError args) →
       gasBlock o opts = (.error e, [.estCtor])) ∧
    (∀ g b sg, cn ≠ "ethlocal" → o.estimateGasCtor = .ok g →
       o.buildTransaction ⟨sender, (db.filter (fun a => a = sender)).length,
         some (min 10000000 (g * GAS_MULTIPLIER))⟩ = .ok b →
       o.signTransaction b = .ok sg → o.sendRawTransaction sg = .ok () →
       write_transaction_attempt true cn o sender db =
         (.ok (o.txHash sg),
          [.estCtor,
           .build ⟨sender, (db.filter (fun a => a = sender)).length,
             some (min 10000000 (g * GAS_MULTIPLIER))⟩,
           .signTx b, .broadcast sg])) := by
  refine ⟨?_, ?_, ?_, ?_⟩
  · intro g h
    rw [gasBlock, h]
  · intro args b g2 h hb hn
    rw [gasBlock, h]
    dsimp only
    rw [hb]
    dsimp only
    rw [hn]
  · intro e h hne
    rw [gasBlock, h]
    cases e <;> first | rfl | exact absurd rfl (hne _)
  · intro g b sg hcn hest hb hsign hsend
    unfold write_transaction_attempt buildWithEscalation gasBlock
    simp [hest, hb, hsign, hsend, hcn]

/-- Witness for C9 (amended) at concrete inputs: a constructor estimate
of 8000000 is attached as min(10000000, 16000000) = 10000000; a
fallback estimate of 30000000 is attached as-is; a KeyError propagates;
and the enabled attempt builds with the capped constructor estimate. -/
theorem gas_estimation_behavior_witness :
    (gasBlock
      { getTransactionCount := 0, estimateGasCtor := .ok 8000000,
        buildTransaction := fun _ => .ok 1, estimateGasNode := fun _ => .ok 5,
        signTransaction := fun _ => .ok 2, sendRawTransaction := fun _ => .ok (),
        txHash := fun _ => "0xa" } ⟨"alice", 0, none⟩ =
      (.ok ⟨"alice", 0, some 10000000⟩, [.estCtor])) ∧
    (gasBlock
      { getTransactionCount := 0, estimateGasCtor := .error (.valueError []),
        buildTransaction := fun _ => .ok 1, estimateGasNode := fun _ => .ok 30000000,
        signTransaction := fun _ => .ok 2, sendRawTransaction := fun _ => .ok (),
        txHash := fun _ => "0xa" } ⟨"alice", 0, none⟩ =
      (.ok ⟨"alice", 0, some 30000000⟩,
       [.estCtor, .build ⟨"alice", 0, none⟩, .estNode 1])) ∧
    (gasBlock
      { getTransactionCount := 0, estimateGasCtor := .error .keyError,
        buildTransaction := fun _ => .ok 1, estimateGasNode := fun _ => .ok 5,
        signTransaction := fun _ => .ok 2, sendRawTransaction := fun _ => .ok (),
        txHash := fun _ => "0xa" } ⟨"alice", 0, none⟩ =
      (.error .keyError, [.estCtor])) ∧
    (write_transaction_attempt true "chain"
      { getTransactionCount := 0, estimateGasCtor := .ok 8000000,
        buildTransaction := fun _ => .ok 1, estimateGasNode := fun _ => .ok 5,
        signTransaction := fun _ => .ok 2, sendRawTransaction := fun _ => .ok (),
        txHash := fun _ => "0xa" } "alice" [] =
      (.ok "0xa",
       [.estCtor, .build ⟨"alice", 0, some 10000000⟩, .signTx 1, .broadcast 2])) := by
  refine ⟨?_, ?_, ?_, ?_⟩
  · exact (gas_estimation_behavior "chain" "alice" _ [] ⟨"alice", 0, none⟩).1 8000000 rfl
  · exact (gas_estimation_behavior "chain" "alice" _ [] ⟨"alice", 0, none⟩).2.1 [] 1
      30000000 rfl rfl rfl
  · exact (gas_estimation_behavior "chain" "alice" _ [] ⟨"alice", 0, none⟩).2.2.1
      .keyError rfl (fun args h => by cases h)
  · exact (gas_estimation_behavior "chain" "alice"
      { getTransactionCount := 0, estimateGasCtor := .ok 8000000,
        buildTransaction := fun _ => .ok 1, estimateGasNode := fun _ => .ok 5,
        signTransaction := fun _ => .ok 2, sendRawTransaction := fun _ => .ok (),
        txHash := fun _ => "0xa" } [] ⟨"alice", 0, none⟩).2.2.2
      8000000 1 2 (by decide) rfl rfl rfl rfl

/-- One escape group of the classifier pattern: a backslash, the letter
x, two or three characters of the class [0-9a-z], and an optional
trailing space. -/
def EscGroup (g : List Char) : Prop :=
  ∃ b sp, g = bslash :: 'x' :: (b ++ sp) ∧ (b.length = 2 ∨ b.length = 3) ∧
    (∀ c ∈ b, isEscClass c = true) ∧ (sp = [] ∨ sp = [' '])

theorem escRemainders_sound (s r : List Char) (hr : r ∈ escRemainders s) :
    ∃ g, EscGroup g ∧ s = g ++ r := by
  rcases s with _ | ⟨c0, s1⟩
  · simp [escRemainders] at hr
  rcases s1 with _ | ⟨c1, s2⟩
  · simp [escRemainders] at hr
  rcases s2 with _ | ⟨c2, s3⟩
  · simp [escRemainders] at hr
  rcases s3 with _ | ⟨c3, r2⟩
  · simp [escRemainders] at hr
  rw [escRemainders.eq_def] at hr
  dsimp only at hr
  split at hr
  · rename_i hc
    obtain ⟨hc0, hc1, hc2, hc3⟩ := hc
    subst hc0
    subst hc1
    have hmem3 : ∀ c ∈ [c2, c3], isEscClass c = true := by
      intro c hcm
      simp only [List.mem_cons, List.not_mem_nil, or_false] at hcm
      rcases hcm with rfl | rfl
      · exact hc2
      · exact hc3
    rcases List.mem_append.mp hr with hA | hB
    · rcases r2 with _ | ⟨c4, r3⟩
      · simp at hA
      · dsimp only at hA
        split at hA
        · rename_i h4
          have hmem4 : ∀ c ∈ [c2, c3, c4], isEscClass c = true := by
            intro c hcm
            simp only [List.mem_cons, List.not_mem_nil, or_false] at hcm
            rcases hcm with rfl | rfl | rfl
            · exact hc2
            · exact hc3
            · exact h4
          rcases r3 with _ | ⟨c5, r4⟩
          · simp only [List.mem_singleton] at hA
            subst hA
            exact ⟨bslash :: 'x' :: ([c2, c3, c4] ++ []),
              ⟨[c2, c3, c4], [], rfl, Or.inr rfl, hmem4, Or.inl rfl⟩, by simp⟩
          · dsimp only at hA
            split at hA
            · rename_i h5
              subst h5
              simp only [List.mem_cons, List.not_mem_nil, or_false] at hA
              rcases hA with rfl | rfl
              · exact ⟨bslash :: 'x' :: ([c2, c3, c4] ++ [' ']),
                  ⟨[c2, c3, c4], [' '], rfl, Or.inr rfl, hmem4, Or.inr rfl⟩, by simp⟩
              · exact ⟨bslash :: 'x' :: ([c2, c3, c4] ++ []),
                  ⟨[c2, c3, c4], [], rfl, Or.inr rfl, hmem4, Or.inl rfl⟩, by simp⟩
            · simp only [List.mem_singleton] at hA
              subst hA
              exact ⟨bslash :: 'x' :: ([c2, c3, c4] ++ []),
                ⟨[c2, c3, c4], [], rfl, Or.inr rfl, hmem4, Or.inl rfl⟩, by simp⟩
        · simp at hA
    · rcases r2 with _ | ⟨c4, r3⟩
      · simp only [List.mem_singleton] at hB
        subst hB
        exact ⟨bslash :: 'x' :: ([c2, c3] ++ []),
          ⟨[c2, c3], [], rfl, Or.inl rfl, hmem3, Or.inl rfl⟩, by simp⟩
      · dsimp only at hB
        split at hB
        · rename_i h4
          subst h4
          simp only [List.mem_cons, List.not_mem_nil, or_false] at hB
          rcases hB with rfl | rfl
          · exact ⟨bslash :: 'x' :: ([c2, c3] ++ [' ']),
              ⟨[c2, c3], [' '], rfl, Or.inl rfl, hmem3, Or.inr rfl⟩, by simp⟩
          · exact ⟨bslash :: 'x' :: ([c2, c3] ++ []),
              ⟨[c2, c3], [], rfl, Or.inl rfl, hmem3, Or.inl rfl⟩, by simp⟩
        · simp only [List.mem_singleton] at hB
          subst hB
          exact ⟨bslash :: 'x' :: ([c2, c3] ++ []),
            ⟨[c2, c3], [], rfl, Or.inl rfl, hmem3, Or.inl rfl⟩, by simp⟩
  · simp at hr

theorem msgCapture_sound (s m : List Char) (h : msgCapture s = some m) :
    m ≠ [] ∧ (∀ c ∈ m, c ≠ bslash) ∧ ∃ rest, s = m ++ rest := by
  rw [msgCapture] at h
  split at h
  · cases h
  · rename_i hne
    have hm : m = s.takeWhile (fun c => c ≠ bslash) := (Option.some.inj h).symm
    subst hm
    refine ⟨by simpa [List.isEmpty_iff] using hne, ?_, s.dropWhile (fun c => c ≠ bslash),
      (List.takeWhile_append_dropWhile _ _).symm⟩
    intro c hc
    have := List.mem_takeWhile_imp hc
    simpa using this

theorem afterEsc_sound :
    ∀ fuel s m, afterEsc fuel s = some m →
      ∃ (gs : List (List Char)) (rest : List Char),
        (∀ g ∈ gs, EscGroup g) ∧ s = gs.flatten ++ (m ++ rest) ∧
        m ≠ [] ∧ (∀ c ∈ m, c ≠ bslash) := by
  intro fuel
  induction fuel with
  | zero => intro s m h; cases h
  | succ f ih =>
    intro s m h
    rw [afterEsc] at h
    rcases hfind : (escRemainders s).findSome? (afterEsc f) with _ | m2
    · rw [hfind] at h
      dsimp only at h
      obtain ⟨hm, hbf, rest, hs⟩ := msgCapture_sound s m h
      exact ⟨[], rest, by simp, by simpa using hs, hm, hbf⟩
    · rw [hfind] at h
      dsimp only at h
      obtain rfl : m = m2 := (Option.some.inj h).symm
      obtain ⟨r, hrmem, hr⟩ := List.exists_of_findSome?_eq_some hfind
      obtain ⟨g, hg, hs⟩ := escRemainders_sound s r hrmem
      obtain ⟨gs, rest, hgs, hsr, hm, hbf⟩ := ih r m hr
      refine ⟨g :: gs, rest, ?_, ?_, hm, hbf⟩
      · intro g2 hg2
        rcases List.mem_cons.mp hg2 with rfl | hg2
        · exact hg
        · exact hgs _ hg2
      · rw [hs, hsr]
        simp

theorem dotStarCandidates_sound (s : List Char) :
    ∀ t ∈ dotStarCandidates s, ∃ pre, s = pre ++ t ∧ ∀ c ∈ pre, c ≠ '\n' := by
  induction s with
  | nil =>
    intro t ht
    simp only [dotStarCandidates, List.mem_singleton] at ht
    subst ht
    exact ⟨[], rfl, by simp⟩
  | cons c cs ih =>
    intro t ht
    rw [dotStarCandidates] at ht
    rcases List.mem_cons.mp ht with rfl | h2
    · exact ⟨[], rfl, by simp⟩
    · split at h2
      · simp at h2
      · rename_i hc
        obtain ⟨pre, hpre, hnl⟩ := ih t h2
        refine ⟨c :: pre, by rw [hpre]; rfl, ?_⟩
        intro x hx
        rcases List.mem_cons.mp hx with rfl | hx
        · exact hc
        · exact hnl x hx

theorem regexMsgCh_sound (s m : List Char) (h : regexMsgCh s = some m) :
    ∃ (pre : List Char) (gs : List (List Char)) (rest : List Char),
      gs ≠ [] ∧ (∀ g ∈ gs, EscGroup g) ∧
      s = pre ++ 'b' :: squote :: (gs.flatten ++ (m ++ rest)) ∧
      (∀ c ∈ pre, c ≠ '\n') ∧
      m ≠ [] ∧ (∀ c ∈ m, c ≠ bslash) := by
  rw [regexMsgCh] at h
  obtain ⟨t, htmem, ht⟩ := List.exists_of_findSome?_eq_some h
  obtain ⟨pre, hpre, hnl⟩ :=
    dotStarCandidates_sound s t (List.mem_reverse.mp htmem)
  rcases t with _ | ⟨c0, t1⟩
  · simp at ht
  rcases t1 with _ | ⟨c1, rest0⟩
  · simp at ht
  dsimp only at ht
  split at ht
  · rename_i hc
    obtain ⟨h0, h1⟩ := hc
    subst h0
    subst h1
    rw [matchAfterTick] at ht
    obtain ⟨r, hrmem, hr⟩ := List.exists_of_findSome?_eq_some ht
    obtain ⟨g, hg, hs0⟩ := escRemainders_sound rest0 r hrmem
    obtain ⟨gs, rest, hgs, hsr, hm, hbf⟩ := afterEsc_sound rest0.length r m hr
    refine ⟨pre, g :: gs, rest, by simp, ?_, ?_, hnl, hm, hbf⟩
    · intro g2 hg2
      rcases List.mem_cons.mp hg2 with rfl | hg2
      · exact hg
      · exact hgs _ hg2
    · rw [hpre, hs0, hsr]
      simp
  · cases ht

theorem regexMsg_sound (s msg : String) (h : regexMsg s = some msg) :
    ∃ (pre : List Char) (gs : List (List Char)) (rest : List Char),
      gs ≠ [] ∧ (∀ g ∈ gs, EscGroup g) ∧
      s.data = pre ++ 'b' :: squote :: (gs.flatten ++ (msg.data ++ rest)) ∧
      (∀ c ∈ pre, c ≠ '\n') ∧
      msg ≠ "" ∧ (∀ c ∈ msg.data, c ≠ bslash) := by
  rw [regexMsg] at h
  rcases hm : regexMsgCh s.data with _ | m
  · rw [hm] at h
    cases h
  · rw [hm] at h
    dsimp only [Option.map] at h
    have hmsg : String.mk m = msg := Option.some.inj h
    obtain ⟨pre, gs, rest, hne, hgs, hdec, hnl, hm0, hbf⟩ := regexMsgCh_sound s.data m hm
    subst hmsg
    refine ⟨pre, gs, rest, hne, hgs, hdec, hnl, ?_, hbf⟩
    intro hcontra
    exact hm0 (by simpa using congrArg String.data hcontra)

/-- C8: a failure from the known closed set of provider exception types
raised during a read-only call is classified: when the diagnostic string
matches the pattern (a prefix of non-newline characters, the characters
b and quote, one or more escaped-byte groups, then free text) a generic
failure carries exactly the captured nonempty backslash-free trailing
fragment; when the string does not match, the generic failure carries
the original raw message unmodified; a failure outside the known set
propagates unmodified. -/
theorem call_error_classifier (abi : List AbiFn) (fname : String) (func : AbiFn)
    (tl : List AbiFn) (k : W3Exc) (msg frag othermsg : String)
    (hf : find_functions_by_name abi fname = func :: tl) :
    (regexMsg msg = some frag →
       call abi fname (.failure (.known k msg)) = .error (.generic frag) ∧
       frag ≠ "" ∧ (∀ c ∈ frag.data, c ≠ bslash) ∧
       ∃ (pre : List Char) (gs : List (List Char)) (rest : List Char),
         gs ≠ [] ∧ (∀ g ∈ gs, EscGroup g) ∧
         msg.data = pre ++ 'b' :: squote :: (gs.flatten ++ (frag.data ++ rest)) ∧
         (∀ c ∈ pre, c ≠ '\n')) ∧
    (regexMsg msg = none →
       call abi fname (.failure (.known k msg)) = .error (.generic msg)) ∧
    (call abi fname (.failure (.other othermsg)) =
       .error (.reraised (.other othermsg))) := by
  refine ⟨?_, ?_, ?_⟩
  · intro hmatch
    obtain ⟨pre, gs, rest, hne, hgs, hdec, hnl, hm0, hbf⟩ :=
      regexMsg_sound msg frag hmatch
    refine ⟨?_, hm0, hbf, pre, gs, rest, hne, hgs, hdec, hnl⟩
    rw [call, hf]
    dsimp only
    rw [hmatch]
  · intro hnone
    rw [call, hf]
    dsimp only
    rw [hnone]
  · rw [call, hf]

/-- Witness for C8 at concrete inputs: the diagnostic string with two
escaped-byte groups yields only the trailing fragment, the plain
diagnostic string passes through unchanged, a string whose only
b-quote occurrence lies after a newline also passes through unchanged
(the dot of the pattern does not cross a newline), and an unknown
failure is re-raised. -/
theorem call_error_classifier_witness :
    (call [⟨"balanceOf", [⟨"v", "uint256"⟩]⟩] "balanceOf"
        (.failure (.known .badFunctionCallOutput "err b'\\x65\\x66 hello'")) =
       .error (.generic "hello'") ∧
     "hello'" ≠ "" ∧ (∀ c ∈ ("hello'" : String).data, c ≠ bslash) ∧
     ∃ (pre : List Char) (gs : List (List Char)) (rest : List Char),
       gs ≠ [] ∧ (∀ g ∈ gs, EscGroup g) ∧
       ("err b'\\x65\\x66 hello'" : String).data =
         pre ++ 'b' :: squote :: (gs.flatten ++ (("hello'" : String).data ++ rest)) ∧
       (∀ c ∈ pre, c ≠ '\n')) ∧
    (call [⟨"balanceOf", [⟨"v", "uint256"⟩]⟩] "balanceOf"
        (.failure (.known .timeExhausted
          "Could not transact with/call contract function")) =
       .error (.generic "Could not transact with/call contract function")) ∧
    (call [⟨"balanceOf", [⟨"v", "uint256"⟩]⟩] "balanceOf"
        (.failure (.known .timeExhausted "pre\nmore b'\\x65\\x66 hello'")) =
       .error (.generic "pre\nmore b'\\x65\\x66 hello'")) ∧
    (call [⟨"balanceOf", [⟨"v", "uint256"⟩]⟩] "balanceOf"
        (.failure (.other "ConnectionError")) =
       .error (.reraised (.other "ConnectionError"))) := by
  refine ⟨?_, ?_, ?_, ?_⟩
  · exact (call_error_classifier [⟨"balanceOf", [⟨"v", "uint256"⟩]⟩] "balanceOf"
      ⟨"balanceOf", [⟨"v", "uint256"⟩]⟩ [] .badFunctionCallOutput
      "err b'\\x65\\x66 hello'" "hello'" "x" rfl).1 rfl
  · exact (call_error_classifier [⟨"balanceOf", [⟨"v", "uint256"⟩]⟩] "balanceOf"
      ⟨"balanceOf", [⟨"v", "uint256"⟩]⟩ [] .timeExhausted
      "Could not transact with/call contract function" "y" "x" rfl).2.1 rfl
  · exact (call_error_classifier [⟨"balanceOf", [⟨"v", "uint256"⟩]⟩] "balanceOf"
      ⟨"balanceOf", [⟨"v", "uint256"⟩]⟩ [] .timeExhausted
      "pre\nmore b'\\x65\\x66 hello'" "y" "x" rfl).2.1 rfl
  · exact (call_error_classifier [⟨"balanceOf", [⟨"v", "uint256"⟩]⟩] "balanceOf"
      ⟨"balanceOf", [⟨"v", "uint256"⟩]⟩ [] .timeExhausted "m" "y"
      "ConnectionError" rfl).2.2

end DjB
